import Mathlib

/-!
Verification development for the Texas Hold'em engine
(`poker/cards.py`, `poker/hand_evaluator.py`, `poker/player.py`, `poker/game.py`).

Shallow embedding conventions:
* Python `int` chip amounts are modelled as `Nat` where the code only ever
  produces non-negative values (stacks, bets, pot); the few places where the
  source can compute a negative intermediate (`bet_amount - prev_bet` in
  `_calculate_side_pots`, `current_bet - player.current_bet` in the state
  snapshot) are modelled with `Int`.
* Python objects mutated in place become explicit state passing.  Player
  objects are identified by `player_id`; `add_player` enforces id uniqueness,
  so Python's identity-based `in` / `==` tests on players coincide with
  `player_id` equality.
* `random.shuffle` is modelled by passing the shuffled permutation of the
  deck to `start_hand` as an explicit argument.
* `Deck.deal` raises on underflow in Python; within a hand at most 28 of the
  52 cards are consumed, so the underflow path is unreachable and dealing is
  modelled with `List.take` / `List.drop`.
-/

/-- `Suit` enum from `cards.py`. -/
inductive Suit where
  | HEARTS | DIAMONDS | CLUBS | SPADES
deriving DecidableEq, Repr

/-- `Card` from `cards.py`.  The Python `Rank` enum stores its numeric
`.value` (2..14); every computation in the engine uses only `card.rank.value`,
so the rank is embedded directly as that numeral. -/
structure Card where
  rank : Nat
  suit : Suit
deriving DecidableEq, Repr

/-- `Deck.reset` order: `[Card(rank, suit) for suit in Suit for rank in Rank]`. -/
def fullDeck : List Card :=
  [Suit.HEARTS, Suit.DIAMONDS, Suit.CLUBS, Suit.SPADES].flatMap fun s =>
    (List.range 13).map fun i => ⟨i + 2, s⟩

/-- `HandRank` enum from `hand_evaluator.py`. -/
inductive HandRank where
  | HIGH_CARD | PAIR | TWO_PAIR | THREE_OF_A_KIND | STRAIGHT
  | FLUSH | FULL_HOUSE | FOUR_OF_A_KIND | STRAIGHT_FLUSH | ROYAL_FLUSH
deriving DecidableEq, Repr

/-- Numeric `.value` of the `HandRank` enum members. -/
def HandRank.val : HandRank → Nat
  | .HIGH_CARD => 1
  | .PAIR => 2
  | .TWO_PAIR => 3
  | .THREE_OF_A_KIND => 4
  | .STRAIGHT => 5
  | .FLUSH => 6
  | .FULL_HOUSE => 7
  | .FOUR_OF_A_KIND => 8
  | .STRAIGHT_FLUSH => 9
  | .ROYAL_FLUSH => 10

namespace HandEvaluator

/-- Python `sorted` on a list of naturals (ascending, stable — stability is
irrelevant for plain numbers). -/
def sortAsc (l : List Nat) : List Nat := l.insertionSort (· ≤ ·)

/-- Python `sorted(l, reverse=True)` on naturals. -/
def sortDesc (l : List Nat) : List Nat := (sortAsc l).reverse

/-- `rank_counts[r]`: multiplicity of rank `r` in the hand
(`collections.Counter` lookup). -/
def rankCount (ranks : List Nat) (r : Nat) : Nat :=
  (ranks.filter (fun x => x == r)).length

/-- The straight detection block of `_evaluate_five_cards`, applied to
`sorted(set(ranks))`: returns the `is_straight` flag together with the
(possibly ace-low rewritten) `sorted_ranks` list. -/
def straightInfo (sr : List Nat) : Bool × List Nat :=
  if sr.length = 5 then
    if sr.getLastD 0 - sr.headD 0 = 4 then (true, sr)
    else if sr = [2, 3, 4, 5, 14] then (true, [1, 2, 3, 4, 5])
    else (false, sr)
  else (false, sr)

/-- `HandEvaluator._evaluate_five_cards`.  `Counter` iterates keys in first
occurrence order, which is exactly `ranks.dedup`; `sorted(set(ranks))` is
`sortAsc ranks.dedup`.  The `[...][0]` selections inside a branch are only
reached when the selected list is non-empty (5-card histograms), so `headD 0`
is faithful. -/
def evaluate_five_cards (cards : List Card) : HandRank × List Nat :=
  let ranks := cards.map Card.rank
  let suits := cards.map Card.suit
  let distinct := ranks.dedup
  let is_flush := suits.dedup.length == 1
  let si := straightInfo (sortAsc distinct)
  let is_straight := si.1
  let sorted_ranks := si.2
  if is_flush && is_straight && (sorted_ranks.getLastD 0 == 14)
      && (sorted_ranks.headD 0 == 10) then
    (HandRank.ROYAL_FLUSH, [14])
  else if is_flush && is_straight then
    (HandRank.STRAIGHT_FLUSH, [sorted_ranks.getLastD 0])
  else if distinct.any (fun r => rankCount ranks r == 4) then
    let four_kind := (distinct.filter (fun r => rankCount ranks r == 4)).headD 0
    let kicker := (distinct.filter (fun r => rankCount ranks r == 1)).headD 0
    (HandRank.FOUR_OF_A_KIND, [four_kind, kicker])
  else if distinct.any (fun r => rankCount ranks r == 3)
      && distinct.any (fun r => rankCount ranks r == 2) then
    let three_kind := (distinct.filter (fun r => rankCount ranks r == 3)).headD 0
    let pair := (distinct.filter (fun r => rankCount ranks r == 2)).headD 0
    (HandRank.FULL_HOUSE, [three_kind, pair])
  else if is_flush then
    (HandRank.FLUSH, sortDesc ranks)
  else if is_straight then
    (HandRank.STRAIGHT, [sorted_ranks.getLastD 0])
  else if distinct.any (fun r => rankCount ranks r == 3) then
    let three_kind := (distinct.filter (fun r => rankCount ranks r == 3)).headD 0
    let kickers := sortDesc (distinct.filter (fun r => rankCount ranks r == 1))
    (HandRank.THREE_OF_A_KIND, three_kind :: kickers)
  else
    let pairs := distinct.filter (fun r => rankCount ranks r == 2)
    if pairs.length == 2 then
      let kicker := (distinct.filter (fun r => rankCount ranks r == 1)).headD 0
      (HandRank.TWO_PAIR, sortDesc pairs ++ [kicker])
    else if pairs.length == 1 then
      let kickers := sortDesc (distinct.filter (fun r => rankCount ranks r == 1))
      (HandRank.PAIR, pairs.headD 0 :: kickers)
    else
      (HandRank.HIGH_CARD, sortDesc ranks)

/-- `HandEvaluator._compare_hands` tiebreaker loop: Python iterates
`zip(tiebreakers1, tiebreakers2)`, which stops at the shorter list. -/
def compareTiebreakers : List Nat → List Nat → Int
  | a :: as, b :: bs =>
    if a > b then 1 else if a < b then -1 else compareTiebreakers as bs
  | _, _ => 0

/-- `HandEvaluator._compare_hands`. -/
def compare_hands (h1 h2 : HandRank × List Nat) : Int :=
  if h1.1.val > h2.1.val then 1
  else if h1.1.val < h2.1.val then -1
  else compareTiebreakers h1.2 h2.2

/-- `itertools.combinations(cards, n)` in its enumeration order. -/
def combos : Nat → List Card → List (List Card)
  | 0, _ => [[]]
  | _ + 1, [] => []
  | n + 1, x :: xs => ((combos n xs).map (fun c => x :: c)) ++ combos (n + 1) xs

/-- `HandEvaluator.evaluate_hand`: best 5-card subset under `_compare_hands`.
Fewer than 5 cards raises `ValueError` in Python, modelled as `none`. -/
def evaluate_hand (cards : List Card) : Option (HandRank × List Nat) :=
  if cards.length < 5 then none
  else
    (combos 5 cards).foldl
      (fun best combo =>
        let h := evaluate_five_cards combo
        match best with
        | none => some h
        | some b => if compare_hands h b > 0 then some h else best)
      none

/-- Total wrapper used by the game at showdown, where every evaluated hand has
2 hole + 5 community = 7 cards, so the `none` (exception) path is unreachable. -/
def evaluateHandD (cards : List Card) : HandRank × List Nat :=
  (evaluate_hand cards).getD (HandRank.HIGH_CARD, [])

/-- Python list comparison `<` on two lists of naturals (lexicographic, a
strict prefix is smaller). -/
def pyListLt : List Nat → List Nat → Bool
  | [], [] => false
  | [], _ :: _ => true
  | _ :: _, [] => false
  | a :: as, b :: bs => if a < b then true else if b < a then false else pyListLt as bs

/-- Python tuple comparison `<` on the sort key `(rank.value, tiebreakers)`. -/
def pyKeyLt (x y : Nat × List Nat) : Bool :=
  if x.1 < y.1 then true else if y.1 < x.1 then false else pyListLt x.2 y.2

/-- One insertion step of a stable descending sort by key: a later element
passes every earlier element whose key is `≥` its own, exactly as Python's
stable `list.sort(key=..., reverse=True)` orders equal keys. -/
def insertDescBy (key : α → Nat × List Nat) (x : α) : List α → List α
  | [] => [x]
  | y :: ys => if pyKeyLt (key y) (key x) then x :: y :: ys else y :: insertDescBy key x ys

/-- Python `list.sort(key=..., reverse=True)` (stable, descending). -/
def sortDescBy (key : α → Nat × List Nat) (l : List α) : List α :=
  l.foldl (fun acc x => insertDescBy key x acc) []

/-- The tie-grouping `while` loop at the end of `compare_player_hands`: it
collects maximal runs of consecutive evaluations with identical
`(rank, tiebreakers)` and re-emits their player indices; the fuel is the list
length, enough because every step consumes at least one element. -/
def tieGroupAux : Nat → List (Nat × HandRank × List Nat) → List Nat
  | 0, _ => []
  | _, [] => []
  | fuel + 1, e :: es =>
    let same := fun (f : Nat × HandRank × List Nat) => f.2.1 == e.2.1 && f.2.2 == e.2.2
    (e.1 :: (es.takeWhile same).map (·.1)) ++ tieGroupAux fuel (es.dropWhile same)

/-- `HandEvaluator.compare_player_hands`: evaluate each player's hole cards
plus the community cards, sort player indices by strength (best first, stable)
and group adjacent ties. -/
def compare_player_hands (players_cards : List (List Card)) (community_cards : List Card) :
    List Nat :=
  let evaluations := players_cards.enum.map
    (fun e => (e.1, evaluateHandD (e.2 ++ community_cards)))
  let sorted := sortDescBy (fun e => (e.2.1.val, e.2.2)) evaluations
  tieGroupAux sorted.length sorted

end HandEvaluator

-- `PlayerAction` constants from `player.py` (plain strings in Python).
namespace PlayerAction

def FOLD : String := "fold"
def CHECK : String := "check"
def CALL : String := "call"
def BET : String := "bet"
def RAISE : String := "raise"
def ALL_IN : String := "all_in"

end PlayerAction

/-- `Player` from `player.py` (the chip ledger; the pluggable `get_action`
decision capability is outside the engine core and not modelled). -/
structure Player where
  player_id : String
  name : String
  chips : Nat
  hand : List Card
  current_bet : Nat
  total_bet_this_round : Nat
  is_active : Bool
  is_all_in : Bool
  is_sitting_out : Bool
deriving DecidableEq, Repr

/-- `Player.__init__` defaults. -/
def mkPlayer (pid nm : String) (chips : Nat := 1000) : Player :=
  ⟨pid, nm, chips, [], 0, 0, true, false, false⟩

namespace Player

/-- `Player.add_chips`. -/
def add_chips (p : Player) (amount : Nat) : Player :=
  { p with chips := p.chips + amount }

/-- `Player.remove_chips`: debits `min(amount, chips)`, sets the all-in flag
when the stack hits 0, and returns the updated player with the actual amount
removed. -/
def remove_chips (p : Player) (amount : Nat) : Player × Nat :=
  let actual := min amount p.chips
  let chips := p.chips - actual
  ({ p with chips := chips, is_all_in := if chips = 0 then true else p.is_all_in }, actual)

/-- `Player.bet`: clamps to the stack (turning an oversized request into an
all-in), moves the clamped amount into the committed counters, and returns the
updated player with the actual amount bet. -/
def bet (p : Player) (amount : Nat) : Player × Nat :=
  let s := if p.chips ≤ amount then ({ p with is_all_in := true }, p.chips) else (p, amount)
  let r := s.1.remove_chips s.2
  ({ r.1 with current_bet := r.1.current_bet + r.2,
              total_bet_this_round := r.1.total_bet_this_round + r.2 }, r.2)

/-- `Player.fold`. -/
def fold (p : Player) : Player :=
  { p with is_active := false }

/-- `Player.reset_for_new_hand`. -/
def reset_for_new_hand (p : Player) : Player :=
  { p with hand := [], current_bet := 0, total_bet_this_round := 0,
           is_active := true, is_all_in := false }

/-- `Player.reset_for_new_round`. -/
def reset_for_new_round (p : Player) : Player :=
  { p with current_bet := 0, total_bet_this_round := 0 }

/-- `Player.can_act`. -/
def can_act (p : Player) : Bool :=
  p.is_active && !p.is_all_in && decide (0 < p.chips)

end Player

example : HandEvaluator.evaluate_five_cards
    [⟨14, .SPADES⟩, ⟨13, .SPADES⟩, ⟨12, .SPADES⟩, ⟨11, .SPADES⟩, ⟨10, .SPADES⟩]
    = (HandRank.ROYAL_FLUSH, [14]) := by decide

example : HandEvaluator.evaluate_five_cards
    [⟨14, .SPADES⟩, ⟨5, .HEARTS⟩, ⟨4, .CLUBS⟩, ⟨3, .DIAMONDS⟩, ⟨2, .SPADES⟩]
    = (HandRank.STRAIGHT, [5]) := by decide

example : HandEvaluator.evaluate_five_cards
    [⟨14, .SPADES⟩, ⟨14, .HEARTS⟩, ⟨14, .DIAMONDS⟩, ⟨14, .CLUBS⟩, ⟨13, .SPADES⟩]
    = (HandRank.FOUR_OF_A_KIND, [14, 13]) := by decide

example : fullDeck.length = 52 := by decide

/-- `BettingRound` enum from `game.py`. -/
inductive BettingRound where
  | PRE_FLOP | FLOP | TURN | RIVER | SHOWDOWN
deriving DecidableEq, Repr

/-- String `.value` of the `BettingRound` members. -/
def BettingRound.value : BettingRound → String
  | .PRE_FLOP => "pre_flop"
  | .FLOP => "flop"
  | .TURN => "turn"
  | .RIVER => "river"
  | .SHOWDOWN => "showdown"

/-- `GameState` enum from `game.py`. -/
inductive GameState where
  | WAITING_FOR_PLAYERS | IN_PROGRESS | FINISHED
deriving DecidableEq, Repr

/-- `TexasHoldemGame` state (`game.py`).  `side_pots` eligibility lists and
the `winners` list hold player ids where Python holds object references; the
`acted_this_round` Python set is a duplicate-free id list (only membership and
subset tests are ever performed on it).  `hand_history` is never read by the
engine and is omitted. -/
structure TexasHoldemGame where
  game_id : String
  small_blind : Nat
  big_blind : Nat
  players : List Player
  deck : List Card
  community_cards : List Card
  pot : Nat
  side_pots : List (Nat × List String)
  current_bet : Nat
  betting_round : BettingRound
  dealer_position : Nat
  small_blind_position : Nat
  big_blind_position : Nat
  current_player_index : Nat
  state : GameState
  winners : List (String × Nat)
  acted_this_round : List String
deriving DecidableEq, Repr

/-- `TexasHoldemGame.__init__`. -/
def mkGame (gid : String) (small_blind : Nat := 5) (big_blind : Nat := 10) :
    TexasHoldemGame :=
  { game_id := gid, small_blind := small_blind, big_blind := big_blind,
    players := [], deck := fullDeck, community_cards := [], pot := 0,
    side_pots := [], current_bet := 0, betting_round := BettingRound.PRE_FLOP,
    dealer_position := 0, small_blind_position := 0, big_blind_position := 0,
    current_player_index := 0, state := GameState.WAITING_FOR_PLAYERS,
    winners := [], acted_this_round := [] }

/-- Placeholder for the Python index accesses that are always in range at
their call sites (`active_players[...]`, `self.players[self.dealer_position]`,
`ranked_players[...]`). -/
def defaultPlayer : Player := mkPlayer "" "" 0

/-- `set.add` on the acted-set: no-op when the id is already present. -/
def addActed (acted : List String) (pid : String) : List String :=
  if acted.contains pid then acted else acted ++ [pid]

namespace TexasHoldemGame

/-- `TexasHoldemGame.add_player` (max 10 seats, unique ids). -/
def add_player (g : TexasHoldemGame) (p : Player) : Bool × TexasHoldemGame :=
  if 10 ≤ g.players.length then (false, g)
  else if g.players.any (fun q => q.player_id == p.player_id) then (false, g)
  else (true, { g with players := g.players ++ [p] })

/-- In-place mutation of the (unique) player with id `pid`. -/
def updatePlayer (g : TexasHoldemGame) (pid : String) (f : Player → Player) :
    TexasHoldemGame :=
  { g with players := g.players.map (fun q => if q.player_id == pid then f q else q) }

/-- `TexasHoldemGame.get_active_players`. -/
def get_active_players (g : TexasHoldemGame) : List Player :=
  g.players.filter (fun p => p.is_active && !p.is_sitting_out)

/-- `TexasHoldemGame.get_eligible_players`. -/
def get_eligible_players (g : TexasHoldemGame) : List Player :=
  g.get_active_players.filter Player.can_act

/-- `TexasHoldemGame.get_current_player`. -/
def get_current_player (g : TexasHoldemGame) : Option Player :=
  let eligible := g.get_eligible_players
  if eligible.isEmpty then none
  else eligible.get? (g.current_player_index % eligible.length)

/-- `TexasHoldemGame._all_players_have_acted`. -/
def all_players_have_acted (g : TexasHoldemGame) : Bool :=
  let eligible := g.get_eligible_players
  if eligible.length = 0 then true
  else (eligible.map Player.player_id).all (fun i => g.acted_this_round.contains i)

/-- `TexasHoldemGame._reset_betting_round`.  `self.players[dealer_position]`
is always in range here (the dealer index was taken modulo a sublist length of
`players`); `active.index(dealer_player)` raising `ValueError` (folded dealer)
is the `none` case of `findIdx?`. -/
def reset_betting_round (g : TexasHoldemGame) : TexasHoldemGame :=
  let g := { g with current_bet := 0, acted_this_round := [],
                    players := g.players.map Player.reset_for_new_round }
  let active := g.get_active_players
  if active.isEmpty then g
  else
    let dealer_player := g.players.getD g.dealer_position defaultPlayer
    match active.findIdx? (fun p => p.player_id == dealer_player.player_id) with
    | some dealer_idx => { g with current_player_index := (dealer_idx + 1) % active.length }
    | none => { g with current_player_index := 0 }

/-- `TexasHoldemGame._deal_flop` (burn one, deal three). -/
def deal_flop (g : TexasHoldemGame) : TexasHoldemGame :=
  let g := { g with betting_round := BettingRound.FLOP }
  let g := { g with deck := g.deck.drop 1 }
  let g := { g with community_cards := g.deck.take 3, deck := g.deck.drop 3 }
  g.reset_betting_round

/-- `TexasHoldemGame._deal_turn` (burn one, deal one). -/
def deal_turn (g : TexasHoldemGame) : TexasHoldemGame :=
  let g := { g with betting_round := BettingRound.TURN }
  let g := { g with deck := g.deck.drop 1 }
  let g := { g with community_cards := g.community_cards ++ g.deck.take 1,
                    deck := g.deck.drop 1 }
  g.reset_betting_round

/-- `TexasHoldemGame._deal_river` (burn one, deal one). -/
def deal_river (g : TexasHoldemGame) : TexasHoldemGame :=
  let g := { g with betting_round := BettingRound.RIVER }
  let g := { g with deck := g.deck.drop 1 }
  let g := { g with community_cards := g.community_cards ++ g.deck.take 1,
                    deck := g.deck.drop 1 }
  g.reset_betting_round

/-- The tier loop of `_calculate_side_pots`: `prev` is the previous tier's
amount, `remaining` mirrors `remaining_pot` (a Python int, so the model uses
`Int`; the tier increment `bet_amount - prev_bet` can be negative because the
amounts are iterated in descending order). -/
def sidePotsLoop (active : List Player) :
    List Nat → Option Nat → Int → List (Nat × List String) → List (Nat × List String)
  | [], _, _, acc => acc
  | b :: rest, prev, remaining, acc =>
    if remaining ≤ 0 then acc
    else
      let eligible := active.filter (fun p => b ≤ p.total_bet_this_round)
      let contribution : Int :=
        match prev with
        | none => (b : Int) * eligible.length
        | some pb => ((b : Int) - (pb : Int)) * eligible.length
      if 0 < contribution then
        sidePotsLoop active rest (some b) (remaining - contribution)
          (acc ++ [(contribution.toNat, eligible.map Player.player_id)])
      else
        sidePotsLoop active rest (some b) remaining acc

/-- `TexasHoldemGame._calculate_side_pots`:
`bet_amounts = sorted(set(p.total_bet_this_round ...), reverse=True)`. -/
def calculate_side_pots (g : TexasHoldemGame) : TexasHoldemGame :=
  let active := g.get_active_players
  if active.isEmpty then g
  else
    let bet_amounts := HandEvaluator.sortDesc (active.map Player.total_bet_this_round).dedup
    { g with side_pots := sidePotsLoop active bet_amounts none (g.pot : Int) [] }

/-- `TexasHoldemGame._showdown`: compute side pots, rank the active players'
hands, then distribute (the side-pot branch replays the Python loop verbatim,
including its index/rank comparisons). -/
def showdown (g : TexasHoldemGame) : TexasHoldemGame :=
  let g := { g with betting_round := BettingRound.SHOWDOWN }
  let active := g.get_active_players
  if active.isEmpty then g
  else
    let g := g.calculate_side_pots
    let player_hands := active.map Player.hand
    let ranked_players := HandEvaluator.compare_player_hands player_hands g.community_cards
    let g := { g with winners := [] }
    let g :=
      if g.side_pots.isEmpty then
        let winner_idx := ranked_players.getD 0 0
        let wp := active.getD winner_idx defaultPlayer
        let g := g.updatePlayer wp.player_id (fun p => p.add_chips g.pot)
        { g with winners := [(wp.player_id, g.pot)] }
      else
        g.side_pots.foldl
          (fun g sp =>
            let pot_amount := sp.1
            let eligible_ids := sp.2
            let eligible_indices := (List.range active.length).filter
              (fun i => eligible_ids.contains (active.getD i defaultPlayer).player_id)
            let winners := (eligible_indices.map (fun i => ranked_players.getD i 0)).filter
              (fun r => eligible_indices.contains r)
            match winners with
            | [] => g
            | w0 :: _ =>
              let per_player := pot_amount / (winners.filter (fun w => w == w0)).length
              let wp := active.getD w0 defaultPlayer
              let g := g.updatePlayer wp.player_id (fun p => p.add_chips per_player)
              { g with winners := g.winners ++ [(wp.player_id, per_player)] })
          g
    { g with state := GameState.FINISHED }

/-- `TexasHoldemGame._check_betting_round_complete`: sole-survivor award or
street advancement. -/
def check_betting_round_complete (g : TexasHoldemGame) : TexasHoldemGame :=
  match g.get_active_players with
  | [winner] =>
    let g := g.updatePlayer winner.player_id (fun p => p.add_chips g.pot)
    { g with winners := [(winner.player_id, g.pot)], state := GameState.FINISHED }
  | _ =>
    match g.betting_round with
    | BettingRound.PRE_FLOP => g.deal_flop
    | BettingRound.FLOP => g.deal_turn
    | BettingRound.TURN => g.deal_river
    | BettingRound.RIVER => g.showdown
    | BettingRound.SHOWDOWN => g

/-- `TexasHoldemGame._advance_to_next_player`. -/
def advance_to_next_player (g : TexasHoldemGame) : TexasHoldemGame :=
  let eligible := g.get_eligible_players
  if eligible.isEmpty then g.check_betting_round_complete
  else
    let g := { g with current_player_index := (g.current_player_index + 1) % eligible.length }
    match g.get_current_player with
    | none => g.check_betting_round_complete
    | some _ =>
      let all_bets_equal := g.get_active_players.all
        (fun p => p.current_bet == g.current_bet || p.is_all_in || !p.is_active)
      if all_bets_equal && g.all_players_have_acted then g.check_betting_round_complete
      else g

/-- The FOLD branch body of `process_action` before the turn advances:
`player.fold()` plus `acted_this_round.add`. -/
def foldApplied (g : TexasHoldemGame) (pid : String) : TexasHoldemGame :=
  let g := g.updatePlayer pid Player.fold
  { g with acted_this_round := addActed g.acted_this_round pid }

/-- The ALL_IN branch body of `process_action` before the turn advances:
bet the whole stack, promote the table bet and clear the acted-set only when
the amount moved this action exceeds the table bet, grow the pot, mark acted. -/
def allInApplied (g : TexasHoldemGame) (pid : String) (player : Player) :
    TexasHoldemGame :=
  let r := player.bet player.chips
  let g := g.updatePlayer pid (fun _ => r.1)
  let g :=
    if g.current_bet < r.2 then
      { g with current_bet := r.1.current_bet, acted_this_round := [] }
    else g
  { g with pot := g.pot + r.2, acted_this_round := addActed g.acted_this_round pid }

/-- `TexasHoldemGame.process_action`.  The Python membership test
`player not in self.get_eligible_players()` and the identity comparison with
`get_current_player()` become id-based tests (ids are unique).  Apostrophes in
the Python failure messages are dropped. -/
def process_action (g : TexasHoldemGame) (pid : String) (action : String)
    (amount : Nat := 0) : (Bool × String) × TexasHoldemGame :=
  if g.state ≠ GameState.IN_PROGRESS then ((false, "Game is not in progress"), g)
  else
    match g.get_eligible_players.find? (fun p => p.player_id == pid) with
    | none => ((false, "Player cannot act"), g)
    | some player =>
      if g.get_current_player.map Player.player_id ≠ some pid then
        ((false, "Not players turn"), g)
      else
        let amount_to_call := g.current_bet - player.current_bet
        let min_raise := g.big_blind
        if action = PlayerAction.FOLD then
          ((true, player.name ++ " folds"), (g.foldApplied pid).advance_to_next_player)
        else if action = PlayerAction.CHECK then
          if 0 < amount_to_call then ((false, "Cannot check, must call or fold"), g)
          else
            let g := { g with acted_this_round := addActed g.acted_this_round pid }
            ((true, player.name ++ " checks"), g.advance_to_next_player)
        else if action = PlayerAction.CALL then
          if amount_to_call = 0 then ((false, "Nothing to call, check instead"), g)
          else
            let call_amount := min amount_to_call player.chips
            let r := player.bet call_amount
            let g := g.updatePlayer pid (fun _ => r.1)
            let g := { g with pot := g.pot + r.2,
                              acted_this_round := addActed g.acted_this_round pid }
            ((true, player.name ++ " calls " ++ toString r.2), g.advance_to_next_player)
        else if action = PlayerAction.BET then
          if 0 < g.current_bet then ((false, "Cannot bet, must call or raise"), g)
          else if amount < min_raise then
            ((false, "Bet must be at least " ++ toString min_raise), g)
          else if player.chips < amount then ((false, "Insufficient chips"), g)
          else
            let r := player.bet amount
            let g := g.updatePlayer pid (fun _ => r.1)
            let g := { g with current_bet := r.1.current_bet, pot := g.pot + r.2,
                              acted_this_round := addActed [] pid }
            ((true, player.name ++ " bets " ++ toString r.2), g.advance_to_next_player)
        else if action = PlayerAction.RAISE then
          if amount_to_call = 0 then ((false, "Nothing to raise, bet instead"), g)
          else
            let total_raise_amount := amount_to_call + amount
            if amount < min_raise then
              ((false, "Raise must be at least " ++ toString min_raise
                  ++ " more than current bet"), g)
            else if player.chips < total_raise_amount then ((false, "Insufficient chips"), g)
            else
              let r := player.bet total_raise_amount
              let g := g.updatePlayer pid (fun _ => r.1)
              let g := { g with current_bet := r.1.current_bet, pot := g.pot + r.2,
                                acted_this_round := addActed [] pid }
              ((true, player.name ++ " raises to " ++ toString g.current_bet),
                g.advance_to_next_player)
        else if action = PlayerAction.ALL_IN then
          let g2 := g.allInApplied pid player
          let moved := (player.bet player.chips).2
          ((true, player.name ++ " goes all-in with " ++ toString moved),
            g2.advance_to_next_player)
        else
          ((false, "Unknown action: " ++ action), g)

set_option maxHeartbeats 1000000 in
/-- `TexasHoldemGame.start_hand`.  The shuffled 52-card permutation produced
by `deck.reset(); deck.shuffle()` is passed in as `shuffled`.  The
`active_players` list is re-filtered after the per-hand resets: Python's list
holds aliases of the mutated player objects, and the filter criteria
(`is_sitting_out`, `chips`) are untouched by `reset_for_new_hand`, so the
re-filter selects the same players with their updated values. -/
def start_hand (g : TexasHoldemGame) (shuffled : List Card) :
    Bool × TexasHoldemGame :=
  let active := g.players.filter (fun p => !p.is_sitting_out && decide (0 < p.chips))
  if active.length < 2 then (false, g)
  else
    let g := { g with deck := shuffled, community_cards := [], pot := 0,
                      side_pots := [], current_bet := 0,
                      betting_round := BettingRound.PRE_FLOP, winners := [] }
    let g := { g with players := g.players.map Player.reset_for_new_hand }
    let dealer := (g.dealer_position + 1) % active.length
    let g := { g with dealer_position := dealer,
                      small_blind_position := (dealer + 1) % active.length,
                      big_blind_position := (dealer + 2) % active.length }
    let active := g.players.filter (fun p => !p.is_sitting_out && decide (0 < p.chips))
    let sb0 := active.getD g.small_blind_position defaultPlayer
    let bb0 := active.getD g.big_blind_position defaultPlayer
    let sb_amount := min g.small_blind sb0.chips
    let bb_amount := min g.big_blind bb0.chips
    let sbr := sb0.bet sb_amount
    let g := { g.updatePlayer sb0.player_id (fun _ => sbr.1) with pot := g.pot + sbr.2 }
    let bbr := bb0.bet bb_amount
    let g := { g.updatePlayer bb0.player_id (fun _ => bbr.1) with pot := g.pot + bbr.2 }
    let g := { g with current_bet := max sbr.1.current_bet bbr.1.current_bet }
    let g := (active.map Player.player_id).foldl
      (fun g pid =>
        let g2 := g.updatePlayer pid (fun p => { p with hand := g.deck.take 2 })
        { g2 with deck := g2.deck.drop 2 })
      g
    let g := { g with acted_this_round := addActed (addActed [] sb0.player_id) bb0.player_id }
    let g := { g with current_player_index := (g.big_blind_position + 1) % active.length,
                      state := GameState.IN_PROGRESS }
    (true, g)

/-- `TexasHoldemGame.get_game_state_for_player` per-opponent entry. -/
structure PlayerPublicView where
  name : String
  chips : Nat
  current_bet : Nat
  is_active : Bool
  is_all_in : Bool
deriving DecidableEq, Repr

/-- The dict returned by `TexasHoldemGame.get_game_state_for_player`.
`current_bet_to_call` is a Python int that can be negative, hence `Int`. -/
structure GameSnapshot where
  game_id : String
  betting_round : String
  pot : Nat
  current_bet : Nat
  current_bet_to_call : Int
  min_raise : Nat
  community_cards : List Card
  hand : List Card
  chips : Nat
  player_current_bet : Nat
  players : List PlayerPublicView
  is_your_turn : Bool
deriving DecidableEq, Repr

/-- `TexasHoldemGame.get_game_state_for_player`.  The `"hand"` entry reads the
argument player's own hole cards; the per-player entries expose no hand. -/
def get_game_state_for_player (g : TexasHoldemGame) (player : Player) : GameSnapshot :=
  { game_id := g.game_id
    betting_round := g.betting_round.value
    pot := g.pot
    current_bet := g.current_bet
    current_bet_to_call := (g.current_bet : Int) - (player.current_bet : Int)
    min_raise := g.big_blind
    community_cards := g.community_cards
    hand := player.hand
    chips := player.chips
    player_current_bet := player.current_bet
    players := g.players.map (fun p => ⟨p.name, p.chips, p.current_bet, p.is_active, p.is_all_in⟩)
    is_your_turn := g.get_current_player.map Player.player_id == some player.player_id }

end TexasHoldemGame

/-- Driver: apply a list of `(player_id, action, amount)` requests with
`process_action`, collecting each success flag. -/
def applyActions (g : TexasHoldemGame) :
    List (String × String × Nat) → List Bool × TexasHoldemGame
  | [] => ([], g)
  | a :: rest =>
    let r := g.process_action a.1 a.2.1 a.2.2
    let t := applyActions r.2 rest
    (r.1.1 :: t.1, t.2)

/-- A full 52-card deck whose first cards are `pre` (a permutation of
`fullDeck` whenever `pre` is duplicate-free). -/
def deckWith (pre : List Card) : List Card :=
  pre ++ fullDeck.filter (fun c => !(pre.contains c))

/-- Two-seat table for the chip-conservation run: A with 1000 chips, B with
110, blinds 5/10. -/
def gameC2 : TexasHoldemGame :=
  { mkGame "g2" with players := [mkPlayer "a" "A" 1000, mkPlayer "b" "B" 110],
                     state := GameState.WAITING_FOR_PLAYERS }

/-- Deck for the chip-conservation run: A is dealt A♠A♥, B 2♣3♣; the board
comes K♦Q♠7♥, 4♣, 9♦ (with burns), so A's pair of aces wins outright. -/
def deckC2 : List Card := deckWith
  [⟨14, .SPADES⟩, ⟨14, .HEARTS⟩, ⟨2, .CLUBS⟩, ⟨3, .CLUBS⟩, ⟨5, .SPADES⟩,
   ⟨13, .DIAMONDS⟩, ⟨12, .SPADES⟩, ⟨7, .HEARTS⟩, ⟨5, .HEARTS⟩, ⟨4, .CLUBS⟩,
   ⟨5, .DIAMONDS⟩, ⟨9, .DIAMONDS⟩]

/-- Legal heads-up hand: limp, three checked streets, A bets 200 on the
river, B calls all-in for 100, showdown. -/
def c2Run : List Bool × TexasHoldemGame :=
  let s := gameC2.start_hand deckC2
  let r := applyActions s.2
    [("a", PlayerAction.CALL, 0),
     ("a", PlayerAction.CHECK, 0), ("b", PlayerAction.CHECK, 0),
     ("a", PlayerAction.CHECK, 0), ("b", PlayerAction.CHECK, 0),
     ("a", PlayerAction.BET, 200), ("b", PlayerAction.ALL_IN, 0)]
  (s.1 :: r.1, r.2)

/-- An all-in player who committed `t` this round (stack 0, flag set). -/
def playerAllIn (pid : String) (t : Nat) : Player :=
  { mkPlayer pid pid 0 with current_bet := t, total_bet_this_round := t, is_all_in := true }

/-- The spec's side-pot scenario: three all-in players who committed 200,
100 and 50 this round, pot 350, at the river. -/
def gameC1 : TexasHoldemGame :=
  { mkGame "g1" with
      players := [playerAllIn "p1" 200, playerAllIn "p2" 100, playerAllIn "p3" 50],
      pot := 350, state := GameState.IN_PROGRESS, betting_round := BettingRound.RIVER }

/-- Two-seat table for the tie-split run: both players with 1000 chips. -/
def gameC3 : TexasHoldemGame :=
  { mkGame "g3" with players := [mkPlayer "a" "A" 1000, mkPlayer "b" "B" 1000] }

/-- Deck for the tie-split run: A is dealt 2♠3♦, B 2♥3♣; the board comes
10♠J♥Q♦, K♣, A♦, so both players play the board straight and tie exactly. -/
def deckC3 : List Card := deckWith
  [⟨2, .SPADES⟩, ⟨3, .DIAMONDS⟩, ⟨2, .HEARTS⟩, ⟨3, .CLUBS⟩, ⟨4, .SPADES⟩,
   ⟨10, .SPADES⟩, ⟨11, .HEARTS⟩, ⟨12, .DIAMONDS⟩, ⟨4, .HEARTS⟩, ⟨13, .CLUBS⟩,
   ⟨4, .DIAMONDS⟩, ⟨14, .DIAMONDS⟩]

/-- Legal heads-up hand checked down to showdown with a 20-chip blind pot
and exactly tied hands. -/
def c3Run : List Bool × TexasHoldemGame :=
  let s := gameC3.start_hand deckC3
  let r := applyActions s.2
    [("a", PlayerAction.CALL, 0),
     ("a", PlayerAction.CHECK, 0), ("b", PlayerAction.CHECK, 0),
     ("a", PlayerAction.CHECK, 0), ("b", PlayerAction.CHECK, 0),
     ("a", PlayerAction.CHECK, 0), ("b", PlayerAction.CHECK, 0)]
  (s.1 :: r.1, r.2)

/-- Four-seat table for the ALL_IN counterexample: C (the small blind) has
103 chips. -/
def gameC4 : TexasHoldemGame :=
  { mkGame "g4" with players := [mkPlayer "a" "A" 1000, mkPlayer "b" "B" 1000,
                                 mkPlayer "c" "C" 103, mkPlayer "d" "D" 1000] }

/-- Reachable pre-flop state: A raised to 100, B called; it is C's turn with
5 already committed and a 98-chip stack, so C's all-in commits 103 in total
(more than the 100 table bet) while moving only 98 chips. -/
def gC4pre : TexasHoldemGame :=
  (applyActions (gameC4.start_hand fullDeck).2
    [("a", PlayerAction.RAISE, 90), ("b", PlayerAction.CALL, 0)]).2

/-- Three-seat table for the early-termination counterexample. -/
def gameC6 : TexasHoldemGame :=
  { mkGame "g6" with players := [mkPlayer "a" "A" 1000, mkPlayer "b" "B" 1000,
                                 mkPlayer "c" "C" 1000] }

/-- Legal hand: pre-flop is called around; on the flop C folds, then B
folds, leaving A the only active player before A has acted this street. -/
def c6Run : List Bool × TexasHoldemGame :=
  let s := gameC6.start_hand fullDeck
  let r := applyActions s.2
    [("b", PlayerAction.CALL, 0), ("c", PlayerAction.CALL, 0),
     ("c", PlayerAction.FOLD, 0), ("b", PlayerAction.FOLD, 0)]
  (s.1 :: r.1, r.2)

/-- Heads-up table used by the early-termination witness. -/
def gameHU : TexasHoldemGame :=
  { mkGame "g7" with players := [mkPlayer "a" "A" 1000, mkPlayer "b" "B" 1000] }

/-- Heads-up state right after `start_hand`: blinds posted, small blind A to
act, both blind posters seeded into the acted-set. -/
def gHU2 : TexasHoldemGame := (gameHU.start_hand fullDeck).2


/-- C1: at showdown with three active players who committed 200, 100 and 50
this round (pot 350), `_calculate_side_pots` does NOT produce the ascending
layers (150, all three), (100, top two) with the remaining 100 uncontested to
the 200-committer: because it iterates the distinct amounts in DESCENDING
order, every tier after the first gets a negative increment and is skipped, so
the only layer is (200, {the 200-committer}) and 150 chips of the pot belong
to no layer. -/
theorem c1_side_pots_bug :
    gameC1.calculate_side_pots.side_pots = [(200, ["p1"])] ∧
    gameC1.pot = 350 ∧
    (gameC1.players.map Player.total_bet_this_round = [200, 100, 50]) ∧
    gameC1.calculate_side_pots.side_pots ≠
      [(150, ["p1", "p2", "p3"]), (100, ["p1", "p2"]), (100, ["p1"])] ∧
    gameC1.calculate_side_pots.side_pots ≠
      [(150, ["p1", "p2", "p3"]), (100, ["p1", "p2"])] := by
  decide

/-- C2: chip conservation fails.  In the legal heads-up hand `c2Run`
(stacks 1000 and 110, blinds 5/10: limp, three checked streets, river bet 200
called all-in for 100) every operation is accepted and the hand reaches
FINISHED, but the final stacks sum to 990 while the hand started with 1110:
the descending side-pot layers cover only 200 of the 320-chip pot and the
showdown distributes only those layers, so 120 chips vanish (and the `pot`
field, never cleared, still reads 320 — the balance fails under either
reading of pot-in-flight). -/
theorem c2_chip_conservation_bug :
    c2Run.1 = [true, true, true, true, true, true, true, true] ∧
    c2Run.2.state = GameState.FINISHED ∧
    (gameC2.players.map Player.chips).sum = 1110 ∧
    (c2Run.2.players.map Player.chips).sum = 990 ∧
    c2Run.2.pot = 320 ∧
    (c2Run.2.players.map Player.chips).sum + 0 ≠ 1110 ∧
    (c2Run.2.players.map Player.chips).sum + c2Run.2.pot ≠ 1110 := by
  decide

/-- C3: tied hands are not split.  In the legal checked-down heads-up hand
`c3Run` both players' best hands evaluate to exactly the same
`(STRAIGHT, [14])` (both play the board 10-J-Q-K-A), yet the showdown credits
the whole 20-chip pot to the first-ranked player only (stacks 1010 / 990,
winners list `[("a", 20)]`) instead of splitting it 10/10 between the tied
players. -/
theorem c3_tie_split_bug :
    c3Run.1 = [true, true, true, true, true, true, true, true] ∧
    c3Run.2.state = GameState.FINISHED ∧
    (c3Run.2.players.map
        (fun p => HandEvaluator.evaluateHandD (p.hand ++ c3Run.2.community_cards)))
      = [(HandRank.STRAIGHT, [14]), (HandRank.STRAIGHT, [14])] ∧
    c3Run.2.players.map Player.chips = [1010, 990] ∧
    c3Run.2.winners = [("a", 20)] ∧
    c3Run.2.players.map Player.chips ≠ [1000, 1000] := by
  decide

/-- `player.bet(player.chips)` always moves exactly the whole stack and
leaves the player all-in with stack 0. -/
theorem Player.bet_full (p : Player) :
    p.bet p.chips =
      ({ p with chips := 0, is_all_in := true,
                current_bet := p.current_bet + p.chips,
                total_bet_this_round := p.total_bet_this_round + p.chips }, p.chips) := by
  simp [Player.bet, Player.remove_chips]

/-- C4 counterexample: in the legal four-player hand reaching `gC4pre`
(A raised to 100, B called, C — small blind with 5 already committed and a
98-chip stack — is to act), C's ALL_IN produces a cumulative commitment of
103, which raises the table bet of 100; the claim then requires the table bet
to become 103 and the acted-set to be reseeded to {C}, but the code compares
only the 98 chips moved against the table bet, treats the action as a call,
and leaves the table bet at 100 with the acted-set still containing A and B. -/
theorem c4_counterexample :
    gC4pre.state = GameState.IN_PROGRESS ∧
    gC4pre.get_current_player.map Player.player_id = some "c" ∧
    (gC4pre.get_eligible_players.find? (fun p => p.player_id == "c")).map
        (fun p => p.current_bet + p.chips) = some 103 ∧
    gC4pre.current_bet = 100 ∧ 100 < 103 ∧
    (gC4pre.process_action "c" PlayerAction.ALL_IN 0).1.1 = true ∧
    (gC4pre.process_action "c" PlayerAction.ALL_IN 0).2.current_bet = 100 ∧
    (gC4pre.process_action "c" PlayerAction.ALL_IN 0).2.current_bet ≠ 103 ∧
    (gC4pre.process_action "c" PlayerAction.ALL_IN 0).2.acted_this_round ≠ ["c"] ∧
    ((gC4pre.process_action "c" PlayerAction.ALL_IN 0).2.acted_this_round.contains "a"
      && (gC4pre.process_action "c" PlayerAction.ALL_IN 0).2.acted_this_round.contains "b")
      = true := by
  decide

/-- C4 (amended): for every eligible player whose turn it is, ALL_IN commits
the entire remaining stack to the pot; if the amount moved by this action
(the whole stack) strictly exceeds the table bet, the table bet is set to the
player's cumulative commitment and the acted-set is cleared and reseeded with
only this player, otherwise it is treated as a call (the acted-set merely
gains the player and the table bet is unchanged — even when the resulting
cumulative commitment exceeds the table bet); the turn then advances. -/
theorem c4_all_in_amended (g : TexasHoldemGame) (pid : String) (player : Player)
    (amt : Nat)
    (h1 : g.state = GameState.IN_PROGRESS)
    (h2 : g.get_eligible_players.find? (fun p => p.player_id == pid) = some player)
    (h3 : g.get_current_player.map Player.player_id = some pid) :
    (player.bet player.chips).2 = player.chips ∧
    (player.bet player.chips).1.chips = 0 ∧
    (player.bet player.chips).1.is_all_in = true ∧
    (player.bet player.chips).1.current_bet = player.current_bet + player.chips ∧
    g.process_action pid PlayerAction.ALL_IN amt =
      ((true, player.name ++ " goes all-in with " ++ toString player.chips),
        (g.allInApplied pid player).advance_to_next_player) ∧
    (g.allInApplied pid player).pot = g.pot + player.chips ∧
    (g.allInApplied pid player).players =
      g.players.map (fun q => if q.player_id == pid then (player.bet player.chips).1 else q) ∧
    (g.current_bet < player.chips →
      (g.allInApplied pid player).current_bet = player.current_bet + player.chips ∧
      (g.allInApplied pid player).acted_this_round = [pid]) ∧
    (¬ g.current_bet < player.chips →
      (g.allInApplied pid player).current_bet = g.current_bet ∧
      (g.allInApplied pid player).acted_this_round = addActed g.acted_this_round pid) := by
  refine ⟨?_, ?_, ?_, ?_, ?_, ?_, ?_, ?_, ?_⟩
  · simp [Player.bet_full]
  · simp [Player.bet_full]
  · simp [Player.bet_full]
  · simp [Player.bet_full]
  · simp [TexasHoldemGame.process_action, h1, h2, h3, PlayerAction.ALL_IN,
      PlayerAction.FOLD, PlayerAction.CHECK, PlayerAction.CALL, PlayerAction.BET,
      PlayerAction.RAISE, Player.bet_full]
  · by_cases hc : g.current_bet < player.chips <;>
      simp [TexasHoldemGame.allInApplied, TexasHoldemGame.updatePlayer,
        Player.bet_full, hc, addActed]
  · by_cases hc : g.current_bet < player.chips <;>
      simp [TexasHoldemGame.allInApplied, TexasHoldemGame.updatePlayer,
        Player.bet_full, hc]
  · intro hc
    simp [TexasHoldemGame.allInApplied, TexasHoldemGame.updatePlayer,
      Player.bet_full, hc, addActed]
  · intro hc
    simp [TexasHoldemGame.allInApplied, TexasHoldemGame.updatePlayer,
      Player.bet_full, hc]

/-- C4 amended witness: the amended ALL_IN theorem applied to the concrete
reachable state `gC4pre` with player C to act. -/
theorem c4_all_in_amended_witness :
    (gC4pre.process_action "c" PlayerAction.ALL_IN 0).1.1 = true := by
  have h := c4_all_in_amended gC4pre "c"
    ((gC4pre.get_eligible_players.find? (fun p => p.player_id == "c")).getD defaultPlayer)
    0 (by decide) (by decide) (by decide)
  rw [h.2.2.2.2.1]

/-- A string with a non-empty left part is non-empty. -/
theorem ne_empty_of_append_left (s t : String) (h : 0 < s.length) : s ++ t ≠ "" := by
  intro he
  have hl := congrArg String.length he
  rw [String.length_append] at hl
  simp at hl
  omega

/-- A string with a non-empty right part is non-empty. -/
theorem ne_empty_of_append_right (s t : String) (h : 0 < t.length) : s ++ t ≠ "" := by
  intro he
  have hl := congrArg String.length he
  rw [String.length_append] at hl
  simp at hl
  omega

/-- C5 counterexample: a rejected `start_hand` does not return an explanatory
message.  Python's `start_hand` returns the bare boolean `False` when fewer
than two eligible players are seated (`return False`, with no message
component in its result type, mirrored by `Bool × TexasHoldemGame` in the
model): on the concrete one-player table the whole rejection result is
exactly `(false, unchanged state)` — there is no message to return,
contradicting the claim that every listed rejection carries an explanatory
message. -/
theorem c5_counterexample :
    (mkGame "solo").start_hand fullDeck = (false, mkGame "solo") := by
  decide

/-- C5 (amended): whenever `process_action` rejects a request (table not in
progress, player not eligible, not the player's turn, under-minimum
bet/raise, over-stack amount, wrong action for the bet state, unknown
action), it returns a failure result with a non-empty explanatory message and
leaves the entire game and player state unchanged; whenever `start_hand`
rejects a request (fewer than two eligible players), it returns a bare
failure flag — carrying no message — and likewise leaves the entire game and
player state unchanged. -/
theorem c5_reject_no_state_change :
    (∀ (g : TexasHoldemGame) (pid action : String) (amount : Nat),
      (g.process_action pid action amount).1.1 = false →
        (g.process_action pid action amount).2 = g ∧
        (g.process_action pid action amount).1.2 ≠ "") ∧
    (∀ (g : TexasHoldemGame) (shuffled : List Card),
      (g.start_hand shuffled).1 = false → (g.start_hand shuffled).2 = g) := by
  have uf : PlayerAction.FOLD = "fold" := rfl
  have uc : PlayerAction.CHECK = "check" := rfl
  have ul : PlayerAction.CALL = "call" := rfl
  have ub : PlayerAction.BET = "bet" := rfl
  have ur : PlayerAction.RAISE = "raise" := rfl
  have ua : PlayerAction.ALL_IN = "all_in" := rfl
  constructor
  · intro g pid action amount
    by_cases hs : g.state = GameState.IN_PROGRESS
    · cases hfind : g.get_eligible_players.find? (fun p => p.player_id == pid) with
      | none => simp [TexasHoldemGame.process_action, hs, hfind]
      | some player =>
        by_cases hcur : g.get_current_player.map Player.player_id = some pid
        · by_cases ha1 : action = "fold"
          · simp [TexasHoldemGame.process_action, hs, hfind, hcur, uf, uc, ul, ub, ur, ua,
              ha1]
          · by_cases ha2 : action = "check"
            · by_cases hb : 0 < g.current_bet - player.current_bet <;>
                simp [TexasHoldemGame.process_action, hs, hfind, hcur, uf, uc, ul, ub, ur,
                  ua, ha1, ha2, hb]
            · by_cases ha3 : action = "call"
              · by_cases hb : g.current_bet - player.current_bet = 0 <;>
                  simp [TexasHoldemGame.process_action, hs, hfind, hcur, uf, uc, ul, ub, ur,
                    ua, ha1, ha2, ha3, hb]
              · by_cases ha4 : action = "bet"
                · by_cases hb1 : 0 < g.current_bet
                  · simp [TexasHoldemGame.process_action, hs, hfind, hcur, uf, uc, ul, ub,
                      ur, ua, ha1, ha2, ha3, ha4, hb1]
                  · by_cases hb2 : amount < g.big_blind
                    · simp [TexasHoldemGame.process_action, hs, hfind, hcur, uf, uc, ul, ub,
                        ur, ua, ha1, ha2, ha3, ha4, hb1, hb2]
                      exact ne_empty_of_append_left _ _ (by decide)
                    · by_cases hb3 : player.chips < amount <;>
                        simp [TexasHoldemGame.process_action, hs, hfind, hcur, uf, uc, ul,
                          ub, ur, ua, ha1, ha2, ha3, ha4, hb1, hb2, hb3]
                · by_cases ha5 : action = "raise"
                  · by_cases hb1 : g.current_bet - player.current_bet = 0
                    · simp [TexasHoldemGame.process_action, hs, hfind, hcur, uf, uc, ul, ub,
                        ur, ua, ha1, ha2, ha3, ha4, ha5, hb1]
                    · by_cases hb2 : amount < g.big_blind
                      · simp [TexasHoldemGame.process_action, hs, hfind, hcur, uf, uc, ul,
                          ub, ur, ua, ha1, ha2, ha3, ha4, ha5, hb1, hb2]
                        exact ne_empty_of_append_right _ _ (by decide)
                      · by_cases hb3 :
                          player.chips < g.current_bet - player.current_bet + amount <;>
                          simp [TexasHoldemGame.process_action, hs, hfind, hcur, uf, uc, ul,
                            ub, ur, ua, ha1, ha2, ha3, ha4, ha5, hb1, hb2, hb3]
                  · by_cases ha6 : action = "all_in"
                    · simp [TexasHoldemGame.process_action, hs, hfind, hcur, uf, uc, ul, ub,
                        ur, ua, ha1, ha2, ha3, ha4, ha5, ha6]
                    · simp [TexasHoldemGame.process_action, hs, hfind, hcur, uf, uc, ul, ub,
                        ur, ua, ha1, ha2, ha3, ha4, ha5, ha6]
                      exact ne_empty_of_append_left _ _ (by decide)
        · simp [TexasHoldemGame.process_action, hs, hfind, hcur]
    · simp [TexasHoldemGame.process_action, hs]
  · intro g shuffled
    by_cases hl : (g.players.filter
        (fun p => !p.is_sitting_out && decide (0 < p.chips))).length < 2
    · simp [TexasHoldemGame.start_hand, hl]
    · simp [TexasHoldemGame.start_hand, hl]

/-- C5 witness: a rejected action (table not in progress) and a rejected
`start_hand` (no players), both leaving the concrete states unchanged. -/
theorem c5_reject_no_state_change_witness :
    (gameC2.process_action "a" PlayerAction.FOLD 0).2 = gameC2 ∧
    (gameC2.process_action "a" PlayerAction.FOLD 0).1.2 ≠ "" ∧
    ((mkGame "solo").start_hand fullDeck).2 = mkGame "solo" :=
  ⟨(c5_reject_no_state_change.1 gameC2 "a" PlayerAction.FOLD 0 (by decide)).1,
   (c5_reject_no_state_change.1 gameC2 "a" PlayerAction.FOLD 0 (by decide)).2,
   c5_reject_no_state_change.2 (mkGame "solo") fullDeck (by decide)⟩

/-- C6 counterexample: in the legal three-player hand `c6Run`, the flop is
checked around by nobody — C folds, then B folds, leaving A as the only active
player — yet the hand does NOT terminate as part of processing B's fold: A has
not acted this street, so the round-completion test fails and the state stays
IN_PROGRESS with the 30-chip pot uncredited (A still has 990 chips and the
winners list is empty), contradicting the claimed immediate termination. -/
theorem c6_counterexample :
    c6Run.1 = [true, true, true, true, true] ∧
    (c6Run.2.get_active_players.map Player.player_id) = ["a"] ∧
    c6Run.2.state = GameState.IN_PROGRESS ∧
    c6Run.2.state ≠ GameState.FINISHED ∧
    c6Run.2.players.map Player.chips = [990, 990, 990] ∧
    c6Run.2.pot = 30 ∧
    c6Run.2.winners = [] := by
  decide

/-- C6 (amended): an accepted FOLD that leaves exactly one active player `w`
terminates the hand immediately as part of processing that action — `w`'s
stack is credited with the entire pot, the state becomes FINISHED, and no
community cards are dealt (deck and board unchanged, so no evaluation runs) —
provided `w` cannot act, or has already acted this street with a committed
amount equal to the table bet; otherwise (for instance consecutive folds
leaving a sole player who has not yet acted this street) the state remains
IN_PROGRESS with the players, pot and winners untouched, and the pot is not
yet awarded. -/
theorem c6_early_termination_amended
    (g : TexasHoldemGame) (pid : String) (player w : Player) (g1 : TexasHoldemGame)
    (h1 : g.state = GameState.IN_PROGRESS)
    (h2 : g.get_eligible_players.find? (fun p => p.player_id == pid) = some player)
    (h3 : g.get_current_player.map Player.player_id = some pid)
    (hg1 : g1 = g.foldApplied pid)
    (hw : g1.get_active_players = [w]) :
    g.process_action pid PlayerAction.FOLD 0 =
      ((true, player.name ++ " folds"), g1.advance_to_next_player) ∧
    (w.can_act = false →
      g1.advance_to_next_player.state = GameState.FINISHED ∧
      g1.advance_to_next_player.winners = [(w.player_id, g1.pot)] ∧
      g1.advance_to_next_player.players =
        g1.players.map (fun q => if q.player_id == w.player_id then q.add_chips g1.pot else q) ∧
      g1.advance_to_next_player.community_cards = g.community_cards ∧
      g1.advance_to_next_player.deck = g.deck) ∧
    (w.can_act = true → w.current_bet = g1.current_bet →
        g1.acted_this_round.contains w.player_id = true →
      g1.advance_to_next_player.state = GameState.FINISHED ∧
      g1.advance_to_next_player.winners = [(w.player_id, g1.pot)] ∧
      g1.advance_to_next_player.players =
        g1.players.map (fun q => if q.player_id == w.player_id then q.add_chips g1.pot else q) ∧
      g1.advance_to_next_player.community_cards = g.community_cards ∧
      g1.advance_to_next_player.deck = g.deck) ∧
    (w.can_act = true →
        ¬(w.current_bet = g1.current_bet ∧ g1.acted_this_round.contains w.player_id = true) →
      g1.advance_to_next_player.state = GameState.IN_PROGRESS ∧
      g1.advance_to_next_player.players = g1.players ∧
      g1.advance_to_next_player.pot = g1.pot ∧
      g1.advance_to_next_player.winners = g1.winners) := by
  have hw' : g1.players.filter (fun p => p.is_active && !p.is_sitting_out) = [w] := hw
  have hmem : w ∈ g1.players.filter (fun p => p.is_active && !p.is_sitting_out) := by
    rw [hw']; exact List.mem_singleton_self w
  have hact : w.is_active = true := by
    have := (List.mem_filter.mp hmem).2
    simp at this
    exact this.1
  refine ⟨?_, ?_, ?_, ?_⟩
  · subst hg1
    simp [TexasHoldemGame.process_action, h1, h2, h3, PlayerAction.FOLD,
      PlayerAction.CHECK, PlayerAction.CALL, PlayerAction.BET, PlayerAction.RAISE,
      PlayerAction.ALL_IN]
  · intro hna
    have helig : g1.get_eligible_players = [] := by
      simp [TexasHoldemGame.get_eligible_players, TexasHoldemGame.get_active_players, hw',
        List.filter_cons, hna]
    have hstate : g1.state = GameState.IN_PROGRESS := by
      subst hg1
      simpa [TexasHoldemGame.foldApplied, TexasHoldemGame.updatePlayer] using h1
    have hcomm : g1.community_cards = g.community_cards := by
      subst hg1; rfl
    have hdeck : g1.deck = g.deck := by
      subst hg1; rfl
    rw [TexasHoldemGame.advance_to_next_player, helig]
    simp [TexasHoldemGame.check_betting_round_complete, hw,
      TexasHoldemGame.updatePlayer, hcomm, hdeck]
  · intro hcan hbet hacted
    have helig : g1.get_eligible_players = [w] := by
      simp [TexasHoldemGame.get_eligible_players, TexasHoldemGame.get_active_players, hw',
        List.filter_cons, hcan]
    have helig' : (g1.players.filter
        (fun p => p.is_active && !p.is_sitting_out)).filter Player.can_act = [w] := helig
    have hcomm : g1.community_cards = g.community_cards := by
      subst hg1; rfl
    have hdeck : g1.deck = g.deck := by
      subst hg1; rfl
    have hmem2 : w.player_id ∈ g1.acted_this_round := by simpa using hacted
    rw [TexasHoldemGame.advance_to_next_player, helig]
    simp [TexasHoldemGame.get_current_player, TexasHoldemGame.get_eligible_players,
      TexasHoldemGame.get_active_players, TexasHoldemGame.all_players_have_acted,
      TexasHoldemGame.check_betting_round_complete, TexasHoldemGame.updatePlayer,
      hw', helig', hbet, hacted, hmem2, hcan, Nat.mod_one, hcomm, hdeck]
  · intro hcan hcond
    have helig : g1.get_eligible_players = [w] := by
      simp [TexasHoldemGame.get_eligible_players, TexasHoldemGame.get_active_players, hw',
        List.filter_cons, hcan]
    have helig' : (g1.players.filter
        (fun p => p.is_active && !p.is_sitting_out)).filter Player.can_act = [w] := helig
    have hstate : g1.state = GameState.IN_PROGRESS := by
      subst hg1
      simpa [TexasHoldemGame.foldApplied, TexasHoldemGame.updatePlayer] using h1
    have hnall : w.is_all_in = false := by
      have h := hcan
      simp [Player.can_act] at h
      exact h.1.2
    rw [TexasHoldemGame.advance_to_next_player, helig]
    by_cases hbet : w.current_bet = g1.current_bet
    · have hnact : g1.acted_this_round.contains w.player_id = false := by
        rcases hb : g1.acted_this_round.contains w.player_id with _ | _
        · rfl
        · exact absurd ⟨hbet, hb⟩ hcond
      have hnmem : w.player_id ∉ g1.acted_this_round := by simpa using hnact
      simp [TexasHoldemGame.get_current_player, TexasHoldemGame.get_eligible_players,
        TexasHoldemGame.get_active_players, TexasHoldemGame.all_players_have_acted,
        hw', helig', hbet, hnact, hnmem, hcan, Nat.mod_one, hstate]
    · simp [TexasHoldemGame.get_current_player, TexasHoldemGame.get_eligible_players,
        TexasHoldemGame.get_active_players, TexasHoldemGame.all_players_have_acted,
        hw', helig', hbet, hnall, hact, hcan, Nat.mod_one, hstate]

/-- C6 amended witness: heads-up after `start_hand`, the small blind folds;
the remaining big blind has acted (seeded into the acted-set) with a matching
committed amount, so the hand finishes immediately and the 15-chip pot goes to
the big blind. -/
theorem c6_early_termination_amended_witness :
    (gHU2.process_action "a" PlayerAction.FOLD 0).2.state = GameState.FINISHED ∧
    (gHU2.process_action "a" PlayerAction.FOLD 0).2.winners = [("b", 15)] := by
  have h := c6_early_termination_amended gHU2 "a"
    ((gHU2.get_eligible_players.find? (fun p => p.player_id == "a")).getD defaultPlayer)
    ((gHU2.foldApplied "a").get_active_players.getD 0 defaultPlayer)
    (gHU2.foldApplied "a")
    (by decide) (by decide) (by decide) rfl (by decide)
  rw [h.1]
  constructor
  · exact (h.2.2.1 (by decide) (by decide) (by decide)).1
  · rw [(h.2.2.1 (by decide) (by decide) (by decide)).2.1]
    decide

/-- The per-player ledger invariant claimed by the spec: the all-in flag
implies an empty stack (stacks are `Nat` in the embedding, mirroring the
clamped debits of the Python code, so `stack ≥ 0` holds by type). -/
def PlayerInv (p : Player) : Prop := p.is_all_in = true → p.chips = 0

/-- C7 counterexample: `add_chips` does not preserve `all-in ⇒ stack = 0`.
Crediting 100 chips to an all-in player with an empty stack (exactly what the
showdown does to an all-in winner) leaves the all-in flag set with a 100-chip
stack. -/
theorem c7_counterexample :
    PlayerInv { mkPlayer "x" "X" 0 with is_all_in := true } ∧
    (({ mkPlayer "x" "X" 0 with is_all_in := true } : Player).add_chips 100).is_all_in
      = true ∧
    (({ mkPlayer "x" "X" 0 with is_all_in := true } : Player).add_chips 100).chips = 100 ∧
    ¬ PlayerInv (({ mkPlayer "x" "X" 0 with is_all_in := true } : Player).add_chips 100) := by
  refine ⟨fun _ => rfl, rfl, rfl, ?_⟩
  intro h
  exact absurd (h rfl) (by decide)

/-- C7 (amended): every ledger operation keeps the stack non-negative —
`remove_chips` (and hence `bet`) never debits more than the stack — and the
committed-this-round amount is changed only by `bet` or the per-round/per-hand
resets (`add_chips`, `remove_chips` and `fold` leave it untouched);
`remove_chips`, `bet`, `fold` and both resets preserve `all-in ⇒ stack = 0`,
but `add_chips` does not (crediting an all-in player leaves the flag set with
a positive stack). -/
theorem c7_ledger_amended :
    (∀ (p : Player) (n : Nat), (p.remove_chips n).2 ≤ p.chips) ∧
    (∀ (p : Player) (n : Nat), PlayerInv p → PlayerInv (p.remove_chips n).1) ∧
    (∀ (p : Player) (n : Nat), PlayerInv p → PlayerInv (p.bet n).1) ∧
    (∀ p : Player, PlayerInv p → PlayerInv p.fold) ∧
    (∀ p : Player, PlayerInv p.reset_for_new_hand) ∧
    (∀ p : Player, PlayerInv p → PlayerInv p.reset_for_new_round) ∧
    (∀ (p : Player) (n : Nat),
      (p.add_chips n).current_bet = p.current_bet ∧
      (p.add_chips n).total_bet_this_round = p.total_bet_this_round) ∧
    (∀ (p : Player) (n : Nat),
      (p.remove_chips n).1.current_bet = p.current_bet ∧
      (p.remove_chips n).1.total_bet_this_round = p.total_bet_this_round) ∧
    (∀ p : Player,
      p.fold.current_bet = p.current_bet ∧
      p.fold.total_bet_this_round = p.total_bet_this_round) := by
  refine ⟨?_, ?_, ?_, ?_, ?_, ?_, ?_, ?_, ?_⟩
  · intro p n
    simp [Player.remove_chips]
  · intro p n hInv h
    simp [Player.remove_chips] at h ⊢
    rcases h with h | h
    · exact h
    · have := hInv h
      omega
  · intro p n hInv
    by_cases hc : p.chips ≤ n
    · intro h
      simp [Player.bet, Player.remove_chips, hc]
    · intro h
      simp [Player.bet, Player.remove_chips, hc] at h ⊢
      rcases h with h | h
      · exact h
      · have := hInv h
        omega
  · intro p hInv h
    exact hInv h
  · intro p h
    simp [Player.reset_for_new_hand] at h
  · intro p hInv h
    exact hInv h
  · intro p n
    exact ⟨rfl, rfl⟩
  · intro p n
    exact ⟨rfl, rfl⟩
  · intro p
    exact ⟨rfl, rfl⟩

/-- C7 amended witness: the preservation statements applied to a concrete
all-in bet of the whole 100-chip stack. -/
theorem c7_ledger_amended_witness :
    (((mkPlayer "w" "W" 100).remove_chips 250).2 ≤ 100) ∧
    PlayerInv ((mkPlayer "w" "W" 100).bet 100).1 :=
  ⟨c7_ledger_amended.1 (mkPlayer "w" "W" 100) 250,
   c7_ledger_amended.2.2.1 (mkPlayer "w" "W" 100) 100 (fun h => absurd h (by decide))⟩

namespace HandEvaluator

/-- The tiebreaker comparison is reflexively zero. -/
theorem ct_refl : ∀ l : List Nat, compareTiebreakers l l = 0
  | [] => rfl
  | a :: as => by
    simp [compareTiebreakers, ct_refl as]

/-- On equal-length lists, a zero tiebreaker comparison forces equality. -/
theorem ct_antisymm : ∀ a b : List Nat,
    a.length = b.length → compareTiebreakers a b = 0 → a = b
  | [], [], _, _ => rfl
  | [], _ :: _, hl, _ => by simp at hl
  | _ :: _, [], hl, _ => by simp at hl
  | x :: xs, y :: ys, hl, h => by
    simp only [compareTiebreakers] at h
    split_ifs at h with e1 e2
    all_goals try omega
    have hxy : x = y := by omega
    have htail := ct_antisymm xs ys (by simpa using hl) h
    rw [hxy, htail]

/-- On equal-length lists, the tiebreaker comparison is transitive on
non-negative outcomes. -/
theorem ct_trans : ∀ a b c : List Nat,
    a.length = b.length → b.length = c.length →
    0 ≤ compareTiebreakers a b → 0 ≤ compareTiebreakers b c →
    0 ≤ compareTiebreakers a c
  | [], [], [], _, _, _, _ => by norm_num [compareTiebreakers]
  | [], _ :: _, _, hl, _, _, _ => by simp at hl
  | _ :: _, [], _, hl, _, _, _ => by simp at hl
  | _ :: _, _ :: _, [], _, hl, _, _ => by simp at hl
  | x :: xs, y :: ys, z :: zs, hl1, hl2, h1, h2 => by
    simp only [compareTiebreakers] at h1 h2 ⊢
    split_ifs at h1 h2 ⊢ <;>
      first
        | exact ct_trans xs ys zs (by simpa using hl1) (by simpa using hl2) h1 h2
        | omega

end HandEvaluator

/-- C9 counterexample: the comparator is not antisymmetric over arbitrary
`(category, tiebreakers)` pairs — the zipped tiebreaker walk ignores the tail
of the longer list, so `(PAIR, [5])` and `(PAIR, [5, 3])` compare equal
without being equal. -/
theorem c9_counterexample :
    HandEvaluator.compare_hands (HandRank.PAIR, [5]) (HandRank.PAIR, [5, 3]) = 0 ∧
    (HandRank.PAIR, ([5] : List Nat)) ≠ (HandRank.PAIR, [5, 3]) := by
  decide

/-- C9 (amended): the comparator is reflexive-equal and any two pairs are
comparable (the result is always 1, -1 or 0); restricted to pairs whose
tiebreaker lists have equal length — which holds for any two evaluator
outputs of the same category — it is also antisymmetric and transitive, hence
a total order there.  Unequal tiebreaker lengths break antisymmetry because
the comparison zips the lists and ignores the longer tail. -/
theorem c9_total_order_amended :
    (∀ x : HandRank × List Nat, HandEvaluator.compare_hands x x = 0) ∧
    (∀ x y : HandRank × List Nat,
      HandEvaluator.compare_hands x y = 1 ∨ HandEvaluator.compare_hands x y = -1 ∨
        HandEvaluator.compare_hands x y = 0) ∧
    (∀ x y : HandRank × List Nat, x.2.length = y.2.length →
      HandEvaluator.compare_hands x y = 0 → x = y) ∧
    (∀ x y z : HandRank × List Nat, x.2.length = y.2.length → y.2.length = z.2.length →
      0 ≤ HandEvaluator.compare_hands x y → 0 ≤ HandEvaluator.compare_hands y z →
      0 ≤ HandEvaluator.compare_hands x z) := by
  have hvi : ∀ a b : HandRank, a.val = b.val → a = b := by
    intro a b h
    cases a <;> cases b <;> simp_all [HandRank.val]
  have hct3 : ∀ a b : List Nat, HandEvaluator.compareTiebreakers a b = 1 ∨
      HandEvaluator.compareTiebreakers a b = -1 ∨
      HandEvaluator.compareTiebreakers a b = 0 := by
    intro a
    induction a with
    | nil => intro b; cases b <;> simp [HandEvaluator.compareTiebreakers]
    | cons x xs ih =>
      intro b
      cases b with
      | nil => simp [HandEvaluator.compareTiebreakers]
      | cons y ys =>
        simp only [HandEvaluator.compareTiebreakers]
        split_ifs <;> simp [ih ys]
  refine ⟨?_, ?_, ?_, ?_⟩
  · intro x
    simp [HandEvaluator.compare_hands, HandEvaluator.ct_refl]
  · intro x y
    simp only [HandEvaluator.compare_hands]
    split_ifs <;> simp [hct3]
  · intro x y hl h
    simp only [HandEvaluator.compare_hands] at h
    split_ifs at h with e1 e2
    all_goals try omega
    have hv : x.1 = y.1 := hvi _ _ (by omega)
    have hts : x.2 = y.2 := HandEvaluator.ct_antisymm x.2 y.2 hl h
    exact Prod.ext hv hts
  · intro x y z hl1 hl2 h1 h2
    simp only [HandEvaluator.compare_hands] at h1 h2 ⊢
    split_ifs at h1 h2 ⊢ <;>
      first
        | exact HandEvaluator.ct_trans x.2 y.2 z.2 hl1 hl2 h1 h2
        | omega

/-- C9 amended witness: transitivity applied to three concrete flush
evaluations of equal tiebreaker length. -/
theorem c9_total_order_amended_witness :
    0 ≤ HandEvaluator.compare_hands (HandRank.FLUSH, [13, 9, 7, 5, 2])
        (HandRank.FLUSH, [11, 9, 7, 5, 2]) :=
  c9_total_order_amended.2.2.2 (HandRank.FLUSH, [13, 9, 7, 5, 2])
    (HandRank.FLUSH, [12, 9, 7, 5, 2]) (HandRank.FLUSH, [11, 9, 7, 5, 2])
    rfl rfl (by decide) (by decide)

/-- Filtering commutes with mapping a function that preserves the filter
predicate. -/
theorem filter_map_eq (l : List Player) (f : Player → Player) (pred : Player → Bool)
    (h : ∀ x, pred (f x) = pred x) :
    (l.map f).filter pred = (l.filter pred).map f := by
  induction l with
  | nil => rfl
  | cons a as ih =>
    cases hpa : pred a <;> simp [List.filter_cons, h a, hpa, ih]

/-- C10: the per-player state snapshot contains the viewer's own hole cards
and is completely independent of every other player's hole cards — replacing
the hands of all players other than the viewer by arbitrary lists (`hands q`)
yields an identical snapshot (so other players' hole cards are never
exposed). -/
theorem c10_snapshot_privacy (g : TexasHoldemGame) (viewer : Player)
    (hands : Player → List Card) :
    TexasHoldemGame.get_game_state_for_player
      { g with players := g.players.map (fun q =>
          if q.player_id == viewer.player_id then q else { q with hand := hands q }) }
      viewer
      = g.get_game_state_for_player viewer ∧
    (g.get_game_state_for_player viewer).hand = viewer.hand := by
  constructor
  · set f : Player → Player :=
      fun q => if q.player_id == viewer.player_id then q else { q with hand := hands q }
      with hf
    have hid : ∀ q, (f q).player_id = q.player_id := by
      intro q; by_cases h : q.player_id = viewer.player_id <;> simp [hf, h]
    have hname : ∀ q, (f q).name = q.name := by
      intro q; by_cases h : q.player_id = viewer.player_id <;> simp [hf, h]
    have hchips : ∀ q, (f q).chips = q.chips := by
      intro q; by_cases h : q.player_id = viewer.player_id <;> simp [hf, h]
    have hcb : ∀ q, (f q).current_bet = q.current_bet := by
      intro q; by_cases h : q.player_id = viewer.player_id <;> simp [hf, h]
    have hact : ∀ q, (f q).is_active = q.is_active := by
      intro q; by_cases h : q.player_id = viewer.player_id <;> simp [hf, h]
    have hall : ∀ q, (f q).is_all_in = q.is_all_in := by
      intro q; by_cases h : q.player_id = viewer.player_id <;> simp [hf, h]
    have hsit : ∀ q, (f q).is_sitting_out = q.is_sitting_out := by
      intro q; by_cases h : q.player_id = viewer.player_id <;> simp [hf, h]
    have hel : ({ g with players := g.players.map f } :
        TexasHoldemGame).get_eligible_players = g.get_eligible_players.map f := by
      simp only [TexasHoldemGame.get_eligible_players, TexasHoldemGame.get_active_players]
      rw [filter_map_eq _ f _ (by intro x; rw [hact x, hsit x]),
        filter_map_eq _ f _ (by intro x; simp [Player.can_act, hact x, hall x, hchips x])]
    have hcur : ({ g with players := g.players.map f } :
        TexasHoldemGame).get_current_player = g.get_current_player.map f := by
      simp only [TexasHoldemGame.get_current_player, hel]
      cases hE : g.get_eligible_players with
      | nil => simp
      | cons a as => simp [← List.map_cons, List.getElem?_map]
    simp only [TexasHoldemGame.get_game_state_for_player, hcur]
    congr 1
    · rw [List.map_map]
      apply List.map_congr_left
      intro a _
      simp [Function.comp, hname a, hchips a, hcb a, hact a, hall a]
    · cases g.get_current_player with
      | none => rfl
      | some c => simp [hid c]
  · rfl


namespace HandEvaluator

theorem sortAsc_sorted (l : List Nat) : List.Sorted (· ≤ ·) (sortAsc l) :=
  List.sorted_insertionSort _ l

theorem sortAsc_perm (l : List Nat) : List.Perm (sortAsc l) l :=
  List.perm_insertionSort _ l

theorem list_eq_five {α : Type} (s : List α) (h : s.length = 5) :
    ∃ a b c d e : α, s = [a, b, c, d, e] := by
  rcases s with _ | ⟨a, s⟩; · simp at h
  rcases s with _ | ⟨b, s⟩; · simp at h
  rcases s with _ | ⟨c, s⟩; · simp at h
  rcases s with _ | ⟨d, s⟩; · simp at h
  rcases s with _ | ⟨e, s⟩; · simp at h
  rcases s with _ | ⟨f, s⟩
  · exact ⟨a, b, c, d, e, rfl⟩
  · simp at h

/-- The code's straight flag holds exactly on five distinct ranks that are
consecutive, or on the wheel. -/
theorem straight_flag_iff (cards : List Card) :
    (straightInfo (sortAsc (cards.map Card.rank).dedup)).1 = true ↔
      ((∃ m, List.Perm (cards.map Card.rank).dedup [m, m + 1, m + 2, m + 3, m + 4]) ∨
        List.Perm (cards.map Card.rank).dedup [2, 3, 4, 5, 14]) := by
  set l := (cards.map Card.rank).dedup with hl
  have hnd : l.Nodup := List.nodup_dedup _
  have hp : List.Perm (sortAsc l) l := sortAsc_perm l
  have hs : List.Sorted (· ≤ ·) (sortAsc l) := sortAsc_sorted l
  have hsnd : (sortAsc l).Nodup := hp.nodup_iff.mpr hnd
  constructor
  · intro h
    unfold straightInfo at h
    split_ifs at h with h5 h4 hw
    · -- length 5, span exactly 4: the sorted distinct ranks are consecutive
      obtain ⟨a, b, c, d, e, hse⟩ := list_eq_five (sortAsc l) h5
      rw [hse] at hs hsnd h4
      simp [List.sorted_cons] at hs
      simp [List.nodup_cons] at hsnd
      simp [List.getLastD] at h4
      left
      refine ⟨a, ?_⟩
      have hb : b = a + 1 := by omega
      have hc : c = a + 2 := by omega
      have hd : d = a + 3 := by omega
      have he : e = a + 4 := by omega
      have : List.Perm l [a, b, c, d, e] := hp.symm.trans (by rw [hse])
      rw [hb, hc, hd, he] at this
      exact this
    · -- the wheel
      right
      exact hp.symm.trans (by rw [hw])
  · intro h
    rcases h with ⟨m, hml⟩ | hwl
    · have hse : sortAsc l = [m, m + 1, m + 2, m + 3, m + 4] := by
        apply List.eq_of_perm_of_sorted (hp.trans hml) hs
        simp [List.sorted_cons]
      unfold straightInfo
      rw [hse]
      simp [List.getLastD]
    · have hse : sortAsc l = [2, 3, 4, 5, 14] := by
        apply List.eq_of_perm_of_sorted (hp.trans hwl) hs
        decide
      unfold straightInfo
      rw [hse]
      decide

end HandEvaluator

theorem wheel_eval (cards : List Card)
    (hperm : List.Perm (cards.map Card.rank) [14, 5, 4, 3, 2])
    (hsuits : (cards.map Card.suit).dedup.length ≠ 1) :
    HandEvaluator.evaluate_five_cards cards = (HandRank.STRAIGHT, [5]) := by
  have hnd : (cards.map Card.rank).Nodup := hperm.nodup_iff.mpr (by decide)
  have hdd : (cards.map Card.rank).dedup = cards.map Card.rank :=
    List.dedup_eq_self.mpr hnd
  have hsorted : HandEvaluator.sortAsc (cards.map Card.rank) = [2, 3, 4, 5, 14] :=
    List.eq_of_perm_of_sorted
      ((HandEvaluator.sortAsc_perm _).trans (hperm.trans (by decide)))
      (HandEvaluator.sortAsc_sorted _) (by decide)
  have hcount : ∀ r, HandEvaluator.rankCount (cards.map Card.rank) r
      = HandEvaluator.rankCount [14, 5, 4, 3, 2] r := by
    intro r
    exact (hperm.filter (fun x => x == r)).length_eq
  have hany4 : ((cards.map Card.rank).any
      (fun r => HandEvaluator.rankCount (cards.map Card.rank) r == 4)) = false := by
    rw [List.any_eq_false]
    intro x hx
    rw [hcount x]
    have hx5 := hperm.mem_iff.mp hx
    fin_cases hx5 <;> decide
  have hany3 : ((cards.map Card.rank).any
      (fun r => HandEvaluator.rankCount (cards.map Card.rank) r == 3)) = false := by
    rw [List.any_eq_false]
    intro x hx
    rw [hcount x]
    have hx5 := hperm.mem_iff.mp hx
    fin_cases hx5 <;> decide
  have hflush : ((cards.map Card.suit).dedup.length == 1) = false := by
    simpa using hsuits
  have hsi : HandEvaluator.straightInfo [2, 3, 4, 5, 14] = (true, [1, 2, 3, 4, 5]) := rfl
  unfold HandEvaluator.evaluate_five_cards
  simp only [hdd, hsorted, hsi, hflush, hany4, hany3, Bool.false_and, Bool.and_false,
    Bool.true_and, Bool.and_true, Bool.false_eq_true, if_false, ite_false]
  norm_num

/-- C8: (i) every 5-card hand whose ranks are exactly {A,5,4,3,2} in mixed
suits (not all one suit) evaluates to STRAIGHT with tiebreaker [5], not [14];
(ii) in general the evaluator's straight flag holds exactly when the hand's
distinct ranks are five consecutive values, or form the wheel {A,2,3,4,5}
with the ace counting low. -/
theorem c8_wheel_straight :
    (∀ cards : List Card,
      List.Perm (cards.map Card.rank) [14, 5, 4, 3, 2] →
      (cards.map Card.suit).dedup.length ≠ 1 →
      HandEvaluator.evaluate_five_cards cards = (HandRank.STRAIGHT, [5])) ∧
    (∀ cards : List Card,
      (HandEvaluator.straightInfo
          (HandEvaluator.sortAsc (cards.map Card.rank).dedup)).1 = true ↔
        ((∃ m, List.Perm (cards.map Card.rank).dedup [m, m + 1, m + 2, m + 3, m + 4]) ∨
          List.Perm (cards.map Card.rank).dedup [2, 3, 4, 5, 14])) :=
  ⟨wheel_eval, HandEvaluator.straight_flag_iff⟩

/-- C8 witness: the wheel A♠5♥4♣3♦2♠ evaluates to `(STRAIGHT, [5])`. -/
theorem c8_wheel_straight_witness :
    HandEvaluator.evaluate_five_cards
      [⟨14, .SPADES⟩, ⟨5, .HEARTS⟩, ⟨4, .CLUBS⟩, ⟨3, .DIAMONDS⟩, ⟨2, .SPADES⟩]
      = (HandRank.STRAIGHT, [5]) :=
  c8_wheel_straight.1
    [⟨14, .SPADES⟩, ⟨5, .HEARTS⟩, ⟨4, .CLUBS⟩, ⟨3, .DIAMONDS⟩, ⟨2, .SPADES⟩]
    (by decide) (by decide)
